import Mathlib

/-!
Verification development for the civic-negligence certificate generator
(`src/app/page.tsx`).

The development shallowly embeds the two units the specification covers:

* the region matcher (`getCMImageUrl`, `getCMImageUrl2`, their combination
  `getCMImageUrl(state) || getCMImageUrl2(state)` at the call site, and the
  `CM_DATA` catalog), and
* the capture/geocode state machine of `PotholeCertificateApp`
  (`startCaptureSequence`, the geolocation callbacks, `handleCapture`,
  `generateCertificate`, the rendering `useEffect`, and `handleReset`).

Strings are embedded as Lean `String`/`List Char`; the JavaScript string
operations used by the source (`toLowerCase`, `replace(/&/g,"and")`,
`replace(/[^a-z\s]/g,"")`, `trim`, `includes`, `split(/\s+/)`) are defined
below on character lists.  JavaScript's `toLowerCase` and `\s` are
Unicode-aware; every string in the catalog and every comparison the program
performs is ASCII, and the embedding uses the ASCII case mapping
(`Char.toLower`) and ASCII whitespace (`Char.isWhitespace`).

The only floating-point computation in the source is the Jaccard similarity
`intersection.size / union.size` compared against `0.4` and against the
running best score.  The embedding represents a score exactly as the pair
(intersection cardinality, union cardinality) and performs every comparison
by cross-multiplication, which agrees with exact rational comparison for
the positive denominators that occur; theorems state scores as the rational
`jaccardQ`.  (IEEE doubles cannot flip any of these comparisons: all scores
are ratios of integers bounded by the word counts involved, so distinct
scores differ by far more than the rounding error of one division.)
-/

set_option maxRecDepth 100000

/-! ### JavaScript string primitives on character lists -/

/-- `toLowerCase` (ASCII). -/
def lcList (l : List Char) : List Char := l.map Char.toLower

/-- `.replace(/&/g, "and")`: every ampersand becomes the three letters `and`. -/
def ampToAnd (l : List Char) : List Char :=
  l.flatMap fun c => if c = '&' then ['a', 'n', 'd'] else [c]

/-- `.trim()`: drop whitespace from both ends. -/
def trimChars (l : List Char) : List Char :=
  ((l.dropWhile Char.isWhitespace).reverse.dropWhile Char.isWhitespace).reverse

/-- Characters kept by `.replace(/[^a-z\s]/g, "")` (applied after
lowercasing): lowercase ASCII letters and whitespace. -/
def keepChar (c : Char) : Bool := ('a' ≤ c && c ≤ 'z') || c.isWhitespace

/-- `.replace(/[^a-z\s]/g, "")`. -/
def stripNonAlpha (l : List Char) : List Char := l.filter keepChar

/-- Does `l` start with `p`? (used to implement `String.prototype.includes`). -/
def startsWithChars : List Char → List Char → Bool
  | [], _ => true
  | _ :: _, [] => false
  | a :: as, b :: bs => a = b && startsWithChars as bs

/-- `hay.includes(needle)`: `needle` occurs contiguously inside `hay`.
The empty needle is contained in everything, as in JavaScript. -/
def containsSub (needle : List Char) : List Char → Bool
  | [] => startsWithChars needle []
  | c :: rest => startsWithChars needle (c :: rest) || containsSub needle rest

/-- `.split(/\s+/).filter(w => w.length > 0)`: the maximal whitespace-free
words of `l`, accumulator-style. -/
def wordsAux : List Char → List Char → List (List Char)
  | [], acc => if acc.isEmpty then [] else [acc.reverse]
  | c :: cs, acc =>
    if c.isWhitespace then
      if acc.isEmpty then wordsAux cs [] else acc.reverse :: wordsAux cs []
    else wordsAux cs (c :: acc)

/-- The whitespace-separated words of a character list. -/
def wordsOf (l : List Char) : List (List Char) := wordsAux l []

/-! ### The catalog (`CM_DATA`), in source order -/

/-- `CM_DATA`: the fixed mapping from region name to chief-minister image
URL.  `Manipur` maps to the empty string ("known region, no image"). -/
def CM_DATA : List (String × String) :=
  [ ("Andhra Pradesh",
      "https://upload.wikimedia.org/wikipedia/commons/a/a8/The_portrait_of_CM_Shri_Nara_Chandrababu_Naidu.jpg"),
    ("Arunachal Pradesh",
      "https://upload.wikimedia.org/wikipedia/commons/2/2b/Pema_Khandu_in_2018.jpg"),
    ("Assam",
      "https://upload.wikimedia.org/wikipedia/commons/thumb/5/54/Himanta_Biswa_Sarma_in_2025.jpg/500px-Himanta_Biswa_Sarma_in_2025.jpg"),
    ("Bihar",
      "https://upload.wikimedia.org/wikipedia/commons/thumb/f/fe/Nitish_Kumar_with_JDU_functionaries_%28cropped%29.jpg/500px-Nitish_Kumar_with_JDU_functionaries_%28cropped%29.jpg"),
    ("Chhattisgarh",
      "https://upload.wikimedia.org/wikipedia/commons/a/a4/Vishnu_Deo_Sai%2C_Chief_Minister_of_Chhattisgarh.jpg"),
    ("Delhi",
      "https://upload.wikimedia.org/wikipedia/commons/7/72/Chief_Minister_of_Delhi%2C_Smt._Rekha_Gupta.jpg"),
    ("Goa",
      "https://upload.wikimedia.org/wikipedia/commons/thumb/9/9e/Pramod_Sawant_at_the_inauguration_of_the_Chhatrapati_Shivaji_Maharaj_Chair_in_Goa_University_%28cropped%29.jpg/500px-Pramod_Sawant_at_the_inauguration_of_the_Chhatrapati_Shivaji_Maharaj_Chair_in_Goa_University_%28cropped%29.jpg"),
    ("Gujarat",
      "https://upload.wikimedia.org/wikipedia/commons/0/0d/Bhupendra_PAtel_Sanskrit.jpg"),
    ("Haryana",
      "https://upload.wikimedia.org/wikipedia/commons/thumb/f/f5/Nayab_Singh_Saini.jpg/500px-Nayab_Singh_Saini.jpg"),
    ("Himachal Pradesh",
      "https://upload.wikimedia.org/wikipedia/commons/thumb/b/b0/Sukhvinder_Singh_Sukhu.jpg/500px-Sukhvinder_Singh_Sukhu.jpg"),
    ("Jammu & Kashmir",
      "https://upload.wikimedia.org/wikipedia/commons/6/68/Omar_Abdullah%2C_Chief_Minister_of_Jammu_%26_Kashmir.jpg"),
    ("Jharkhand",
      "https://upload.wikimedia.org/wikipedia/commons/thumb/6/69/Hemant_Soren_2024.jpg/500px-Hemant_Soren_2024.jpg"),
    ("Karnataka",
      "https://upload.wikimedia.org/wikipedia/commons/thumb/a/ac/Siddaramaiah_at_the_function_to_commemorate_the_serving_of_2_billion_meals_of_the_Akshaya_Patra_Foundation_in_Karnataka_%28cropped%29.jpg/419px-Siddaramaiah_at_the_function_to_commemorate_the_serving_of_2_billion_meals_of_the_Akshaya_Patra_Foundation_in_Karnataka_%28cropped%29.jpg"),
    ("Kerala",
      "https://upload.wikimedia.org/wikipedia/commons/thumb/4/43/Chief_Minister_Pinarayi_Vijayan_2023.tif/lossy-page1-500px-Chief_Minister_Pinarayi_Vijayan_2023.tif.jpg"),
    ("Madhya Pradesh",
      "https://upload.wikimedia.org/wikipedia/commons/5/58/Mohan_Yadav%2C_Chief_Minister_of_Madhya_Pradesh.jpg"),
    ("Maharashtra",
      "https://upload.wikimedia.org/wikipedia/commons/thumb/b/b3/Devendra_Fadnavis_%40Vidhan_Sabha_04-03-2021.jpg/500px-Devendra_Fadnavis_%40Vidhan_Sabha_04-03-2021.jpg"),
    ("Manipur", ""),
    ("Meghalaya",
      "https://upload.wikimedia.org/wikipedia/commons/thumb/8/88/The_Chief_Minister_of_Meghalaya%2C_Shri_Conrad_Sangma.JPG/500px-The_Chief_Minister_of_Meghalaya%2C_Shri_Conrad_Sangma.JPG"),
    ("Mizoram",
      "https://upload.wikimedia.org/wikipedia/commons/thumb/2/28/Lalduhawma1.jpg/500px-Lalduhawma1.jpg"),
    ("Nagaland",
      "https://upload.wikimedia.org/wikipedia/commons/thumb/f/f5/NeiphiuRio.jpg/500px-NeiphiuRio.jpg"),
    ("Odisha",
      "https://upload.wikimedia.org/wikipedia/commons/thumb/0/0c/%E0%AC%B6%E0%AD%8D%E0%AC%B0%E0%AD%80_%E0%AC%AE%E0%AD%8B%E0%AC%B9%E0%AC%A8_%E0%AC%9A%E0%AC%B0%E0%AC%A3_%E0%AC%AE%E0%AC%BE%E0%AC%9D%E0%AD%80.jpg/500px-%E0%AC%B6%E0%AD%8D%E0%AC%B0%E0%AD%80_%E0%AC%AE%E0%AD%8B%E0%AC%B9%E0%AC%A8_%E0%AC%9A%E0%AC%B0%E0%AC%A3_%E0%AC%AE%E0%AC%BE%E0%AC%9D%E0%AD%80.jpg"),
    ("Puducherry",
      "https://upload.wikimedia.org/wikipedia/commons/0/08/N._Rangaswami.jpg"),
    ("Punjab",
      "https://upload.wikimedia.org/wikipedia/commons/f/f8/Bhagwant_Mann.png"),
    ("Rajasthan",
      "https://upload.wikimedia.org/wikipedia/commons/a/aa/Bhajan_Lal_Sharma.jpg"),
    ("Sikkim",
      "https://upload.wikimedia.org/wikipedia/commons/7/72/Prem_Singh_Tamang%2C_Chief_Minister_of_Sikkim.jpg"),
    ("Tamil Nadu",
      "https://upload.wikimedia.org/wikipedia/commons/thumb/4/4a/The_Chief_Minister_of_Tamil_Nadu%2C_Thiru_MK_Stalin.jpeg/500px-The_Chief_Minister_of_Tamil_Nadu%2C_Thiru_MK_Stalin.jpeg"),
    ("Telangana",
      "https://upload.wikimedia.org/wikipedia/commons/thumb/c/c0/Portrait_of_Telangana_CM_Revanth_Reddy.png/500px-Portrait_of_Telangana_CM_Revanth_Reddy.png"),
    ("Tripura",
      "https://upload.wikimedia.org/wikipedia/commons/thumb/a/aa/Manik_Saha_Official_Portrait_2023.jpg/500px-Manik_Saha_Official_Portrait_2023.jpg"),
    ("Uttar Pradesh",
      "https://upload.wikimedia.org/wikipedia/commons/thumb/1/12/PM_and_UP_CM_at_laying_the_foundation_stone_of_the_International_Cricket_Stadium_at_Varanasi%2C_in_Uttar_Pradesh_%283x4_cropped%29.jpg/500px-PM_and_UP_CM_at_laying_the_foundation_stone_of_the_International_Cricket_Stadium_at_Varanasi%2C_in_Uttar_Pradesh_%283x4_cropped%29.jpg"),
    ("Uttarakhand",
      "https://upload.wikimedia.org/wikipedia/commons/9/95/Pushkar_Singh_Dhami%2C_Chief_Minister_of_Uttarakhand.jpg"),
    ("West Bengal",
      "https://upload.wikimedia.org/wikipedia/commons/thumb/4/4d/Official_portrait_of_Mamata_Banerjee.jpg/500px-Official_portrait_of_Mamata_Banerjee.jpg") ]

/-! ### `getCMImageUrl`: exact pass, then substring pass

The two matcher functions close over the constant `CM_DATA`; they are
embedded with the catalog as an explicit parameter (`…G` versions) so that
theorems can state which outputs do not depend on the catalog at all, and
are then specialized at `CM_DATA` under their source names. -/

/-- `state.toLowerCase().replace(/&/g, "and").trim()` — the normalization
shared by the exact and substring passes. -/
def normalizeState (s : String) : List Char := trimChars (ampToAnd (lcList s.data))

/-- The substring pass of `getCMImageUrl`: the first key such that the
normalized key contains the normalized input or vice versa; its image is
returned only if truthy (non-empty). -/
def substringPassG (cat : List (String × String)) (ns : List Char) : Option String :=
  match cat.find? fun kv =>
      containsSub ns (normalizeState kv.1) || containsSub (normalizeState kv.1) ns with
  | some kv => if kv.2 ≠ "" then some kv.2 else none
  | none => none

/-- The body of `getCMImageUrl` after the empty-input guard, as a function
of the normalized input `ns`: the exact pass over `Object.keys(CM_DATA)`,
falling through (also on an empty-string image, which is falsy) to the
substring pass, falling through to the `null` placeholder. -/
def exactThenSubstringG (cat : List (String × String)) (ns : List Char) : Option String :=
  match cat.find? fun kv => normalizeState kv.1 = ns with
  | some kv => if kv.2 ≠ "" then some kv.2 else substringPassG cat ns
  | none => substringPassG cat ns

/-- `getCMImageUrl` over an explicit catalog: `null`/`undefined`/`""` are
falsy and return the `null` placeholder immediately; otherwise exact pass
then substring pass. -/
def getCMImageUrlG (cat : List (String × String)) (state : Option String) : Option String :=
  match state with
  | none => none
  | some s => if s = "" then none else exactThenSubstringG cat (normalizeState s)

/-- `getCMImageUrl` of the source (catalog fixed to `CM_DATA`). -/
def getCMImageUrl (state : Option String) : Option String := getCMImageUrlG CM_DATA state

/-! ### `getCMImageUrl2`: token-overlap (Jaccard) fallback -/

/-- `normalizeAndTokenize`: lowercase, `&`→`and`, strip non-alphabetic
characters except whitespace, trim, split on whitespace, keep non-empty
words, as a set. -/
def normalizeAndTokenize (s : String) : Finset (List Char) :=
  (wordsOf (trimChars (stripNonAlpha (ampToAnd (lcList s.data))))).toFinset

/-- One iteration of the best-match loop of `getCMImageUrl2` (keys with an
empty word set are skipped by `continue`).  The accumulator is
`(bestKey, bestInter, bestUnion)` where the running best score is the real
number `bestInter / bestUnion`; the comparison `score > bestMatch.score` is
performed by cross-multiplication. -/
def fuzzyStep (sw : Finset (List Char)) (acc : String × ℕ × ℕ) (kv : String × String) :
    String × ℕ × ℕ :=
  let kw := normalizeAndTokenize kv.1
  if kw = ∅ then acc
  else
    let i := (sw ∩ kw).card
    let u := (sw ∪ kw).card
    if acc.2.1 * u < i * acc.2.2 then (kv.1, i, u) else acc

/-- The best-match loop of `getCMImageUrl2` over the catalog's keys,
starting from `{ key: "", score: 0.0 }` (score `0/1`). -/
def fuzzyBestG (cat : List (String × String)) (sw : Finset (List Char)) : String × ℕ × ℕ :=
  cat.foldl (fuzzyStep sw) ("", 0, 1)

/-- The tail of `getCMImageUrl2` after tokenizing a non-empty word set `sw`:
accept the best match only if its score is at least `0.4` (`2/5`, checked by
cross-multiplication) and `CM_DATA[bestMatch.key]` is truthy (non-empty). -/
def fuzzyOfG (cat : List (String × String)) (sw : Finset (List Char)) : Option String :=
  if 2 * (fuzzyBestG cat sw).2.2 ≤ 5 * (fuzzyBestG cat sw).2.1 then
    match cat.find? fun kv => kv.1 = (fuzzyBestG cat sw).1 with
    | some kv => if kv.2 ≠ "" then some kv.2 else none
    | none => none
  else none

/-- `getCMImageUrl2` over an explicit catalog: falsy input returns the
placeholder; an input with an empty word set returns the placeholder;
otherwise the token-overlap match. -/
def getCMImageUrl2G (cat : List (String × String)) (state : Option String) : Option String :=
  match state with
  | none => none
  | some s =>
    if s = "" then none
    else if normalizeAndTokenize s = ∅ then none
    else fuzzyOfG cat (normalizeAndTokenize s)

/-- `getCMImageUrl2` of the source (catalog fixed to `CM_DATA`). -/
def getCMImageUrl2 (state : Option String) : Option String := getCMImageUrl2G CM_DATA state

/-- The combination used at the call site in `startCaptureSequence`, over an
explicit catalog: `getCMImageUrl(state) || getCMImageUrl2(state)` (the first
function never returns a truthy empty string, so `||` is exactly
`Option.orElse`). -/
def cmImageUrlForG (cat : List (String × String)) (state : Option String) : Option String :=
  match getCMImageUrlG cat state with
  | some v => some v
  | none => getCMImageUrl2G cat state

/-- The combined region matcher of the source (catalog fixed to `CM_DATA`). -/
def cmImageUrlFor (state : Option String) : Option String := cmImageUrlForG CM_DATA state

/-- The rational value of a Jaccard score between two word sets, as stated
by the spec: intersection size over union size. -/
def jaccardQ (a b : Finset (List Char)) : ℚ := ((a ∩ b).card : ℚ) / ((a ∪ b).card : ℚ)

/-- The Jaccard score of catalog entry `kv` against input word set `sw`. -/
def scoreOf (sw : Finset (List Char)) (kv : String × String) : ℚ :=
  jaccardQ sw (normalizeAndTokenize kv.1)

/-! ### The three-tier region matcher of spec §4.2

The source has two separate functions combined as "use first, fallback to
second"; spec §4.2 instead describes one three-tier algorithm.  For the
refinement claim the §4.2 algorithm is modelled below, from the spec's
words, to be compared with the source's combination. -/

/-- Modelled from the spec: step 5's tokenization — "strip all
non-alphabetic characters (except spaces) … split on whitespace into sets
of words" — applied to a string already normalized by step 2 (the input) or
as in steps 3–4 (a catalog key). -/
def specTokenize (ns : List Char) : Finset (List Char) :=
  (wordsOf (stripNonAlpha ns)).toFinset

/-- Modelled from the spec: one step of step 5's iteration over the
catalog, keeping the entry with the strictly highest Jaccard score seen so
far (step 6: the first maximal score wins, in catalog iteration order).
Scores are the exact rationals `inter / union`, carried as pairs and
compared by cross-multiplication. -/
def specFuzzyStep (sw : Finset (List Char)) (acc : String × ℕ × ℕ) (kv : String × String) :
    String × ℕ × ℕ :=
  let kw := specTokenize (normalizeState kv.1)
  let i := (sw ∩ kw).card
  let u := (sw ∪ kw).card
  if acc.2.1 * u < i * acc.2.2 then (kv.1, i, u) else acc

/-- Modelled from the spec: step 5, the token-overlap fallback.  Compute
the Jaccard similarity of the input's word set against each key's word set,
select the catalog entry with the (first) strictly highest score, and
accept the match only if the score is at least `0.4` (`2/5`); otherwise "no
match".  An accepted match returns that entry's imagery, which may itself
be the empty string. -/
def specBest (s : String) : String × ℕ × ℕ :=
  CM_DATA.foldl (specFuzzyStep (specTokenize (normalizeState s))) ("", 0, 1)

def specTier3 (s : String) : Option String :=
  if 2 * (specBest s).2.2 ≤ 5 * (specBest s).2.1 then
    (CM_DATA.find? fun kv => kv.1 = (specBest s).1).map fun kv => kv.2
  else none

/-- Modelled from the spec: step 4, the substring pass — the first catalog
entry whose normalized key is a substring of the normalized input or vice
versa; its imagery is usable only if non-empty, otherwise step 5 runs
("only if both prior passes found nothing usable"). -/
def specTier2 (ns : List Char) (s : String) : Option String :=
  match CM_DATA.find? fun kv =>
      containsSub ns (normalizeState kv.1) || containsSub (normalizeState kv.1) ns with
  | some kv => if kv.2 ≠ "" then some kv.2 else specTier3 s
  | none => specTier3 s

/-- Modelled from the spec: §4.2's single three-tier region matcher.
Step 1: empty/absent input returns "no match" immediately.  Step 2:
normalize (lowercase, `&` to `and`, trim).  Step 3: the exact pass returns
the matching entry's imagery when usable; an entry whose imagery is empty
counts as "no usable image", so the later passes run ("only if the exact
pass found nothing usable").  Steps 4–6: substring pass, then
token-overlap fallback. -/
def specRegionMatch (input : Option String) : Option String :=
  match input with
  | none => none
  | some s =>
    if s = "" then none
    else
      match CM_DATA.find? fun kv => normalizeState kv.1 = normalizeState s with
      | some kv => if kv.2 ≠ "" then some kv.2 else specTier2 (normalizeState s) s
      | none => specTier2 (normalizeState s) s

/-- Collapsing a returned empty imagery to "no match": a match on an entry
with empty imagery carries no usable image, which the source reports as
`null`. -/
def dropEmptyImage (r : Option String) : Option String :=
  r.bind fun v => if v = "" then none else some v

/-! ### The capture/geocode state machine

`PotholeCertificateApp` holds its session in React `useState` cells plus
the camera stream ref.  The embedding collects them in one record and turns
each handler — together with the outcome of the browser API it awaits —
into a step of a labelled transition function.  Latitude/longitude are
floats in the source; nothing computes on them, they only pass through, so
they are carried as integers here.  `streamActive` embeds
`streamRef.current !== null`; `geoPending` embeds an issued
`getCurrentPosition` request whose callback has not fired yet. -/

/-- `LocationState` of the source. -/
structure LocationState where
  latitude : Int
  longitude : Int
  address : String
deriving DecidableEq

/-- `AppStep` of the source. -/
inductive AppStep
  | initial
  | selectIssue
  | capture
  | generating
  | result
deriving DecidableEq

/-- The session state: the `useState` cells of `PotholeCertificateApp`
plus the camera-stream ref and the pending-geolocation flag. -/
structure AppState where
  step : AppStep
  location : Option LocationState
  error : String
  capturedImage : Option String
  generatedCertificate : Option String
  loadingMessage : String
  isSharing : Bool
  issueType : Option String
  cmImageUrl : Option String
  streamActive : Bool
  geoPending : Bool
deriving DecidableEq

/-- The initial render: every cell at its `useState` initializer. -/
def initState : AppState :=
  { step := .initial, location := none, error := "", capturedImage := none,
    generatedCertificate := none, loadingMessage := "", isSharing := false,
    issueType := none, cmImageUrl := none, streamActive := false, geoPending := false }

/-- Outcome of `navigator.mediaDevices.getUserMedia`: a stream, or a
rejection (whose `name` may or may not be `"NotAllowedError"`). -/
inductive CamResult
  | ok
  | err (notAllowed : Bool)
deriving DecidableEq

/-- Outcome of a pending `navigator.geolocation.getCurrentPosition`
request: the success callback with the position fix and the
reverse-geocoding response (its `display_name` and `address.state` fields,
absent fields as `none`); the success callback with the `fetch` of the
reverse-geocoding service throwing; or the error callback with its
`err.code`. -/
inductive GeoResult
  | ok (latitude longitude : Int) (displayName : Option String) (stateField : Option String)
  | fetchFail (latitude longitude : Int)
  | err (code : ℕ)
deriving DecidableEq

/-- Outcome of the rendering collaborator inside `generateCertificate`
(reached only past the template-ref check): `window.htmlToImage` not yet
loaded, or `toPng` resolving with a data URL, or `toPng` rejecting. -/
inductive RenderResult
  | ok (dataUrl : String)
  | libMissing
  | err
deriving DecidableEq

/-- The classification of a geolocation failure in `startCaptureSequence`'s
error callback: `err.code` 1 (PERMISSION_DENIED), 2 (POSITION_UNAVAILABLE)
and 3 (TIMEOUT) get dedicated messages, anything else the generic one. -/
def geoErrorMessage (code : ℕ) : String :=
  if code = 1 then
    "Location access was denied. Please grant permission in your browser settings."
  else if code = 2 then
    "Location information is unavailable. Please check your network connection or try again."
  else if code = 3 then
    "Failed to get your location in time. Please check your network connection and try again."
  else
    "Unable to retrieve your location. Please enable location services in your OS and browser."

/-- `stopCamera`: stop all tracks and clear the stream ref. -/
def stopCamera (s : AppState) : AppState := { s with streamActive := false }

/-- `handleReset`: `setStep("initial")`, `setLocation(null)`,
`setError("")`, `setCapturedImage(null)`, `setGeneratedCertificate(null)`,
`stopCamera()`, `setIssueType(null)` — and nothing else. -/
def handleReset (s : AppState) : AppState :=
  { s with
      step := .initial, location := none, error := "", capturedImage := none,
           generatedCertificate := none, streamActive := false, issueType := none }

/-- The user actions the UI offers and the asynchronous callbacks that can
fire, each carrying the outcome of the external API it depends on. -/
inductive Event
  | goSelect
  | chooseIssue (issue : String) (cam : CamResult)
  | geoResolve (geo : GeoResult)
  | capturePhoto (ctxOk : Bool) (frame : String)
  | renderFire (render : RenderResult)
  | reset
deriving DecidableEq

/-- One step of the session, `none` when the event cannot occur in `s`:

* `goSelect` — the "Report an Issue" button, shown only on the initial
  screen.
* `chooseIssue issue cam` — `startCaptureSequence(issue)` from an issue
  button, shown only on the selection screen; sets the issue type, clears
  the error, moves to the capture step and requests the camera.  On
  rejection: the message (specific for `NotAllowedError`), `stopCamera()`,
  back to `"initial"`.  On success the stream is held and geolocation is
  requested (the loading overlay reading `"Fetching your location..."`).
* `geoResolve geo` — the pending geolocation request resolves.  Success
  stores `cmImageUrl` from the combined region matcher on the geocoder's
  `state` field and the location (address falling back to
  `"Address not found"` when `display_name` is absent or empty) and clears
  the loading message.  A reverse-geocoding `fetch` failure escapes the
  `async` success callback: no state is touched (the loading overlay is
  left at `"Pinpointing address..."`).  The error callback stores the
  classified message, `stopCamera()`, back to `"initial"`.
* `capturePhoto ctxOk frame` — `handleCapture` from the capture button,
  which the UI disables unless a location is present and no loading message
  is showing (the `<video>` element exists on this screen).  If the 2D
  canvas context is available the frame is stored; either way
  `stopCamera()` runs and the step becomes `"generating"`.
* `renderFire render` — the `useEffect` guarded by
  `step === "generating" && capturedImage && location` runs
  `generateCertificate`.  The off-screen `CertificateDOM` returns `null`
  (so `certificateRef.current` is null) unless `location`, `capturedImage`
  and `issueType` are all non-null: then the template-missing error is set
  and the step returns to `"initial"`.  Otherwise: library not loaded sets
  its message and returns to `"initial"`; `toPng` success stores the data
  URL, clears the loading message and moves to `"result"`; `toPng` failure
  sets the rendering message and returns to `"initial"`.
* `reset` — `handleReset` from the "Start Over" button on the result
  screen. -/
def applyEvent (s : AppState) : Event → Option AppState
  | .goSelect =>
    if s.step = .initial then some { s with step := .selectIssue } else none
  | .chooseIssue issue cam =>
    if s.step = .selectIssue then
      let s1 := { s with
          issueType := some issue, error := "", step := .capture,
                  loadingMessage := "Requesting camera access..." }
      match cam with
      | .ok =>
        some { s1 with
            streamActive := true, geoPending := true,
               loadingMessage := "Fetching your location..." }
      | .err notAllowed =>
        some (stopCamera { s1 with
          error := if notAllowed then
              "Camera access was denied. Please grant permission in your browser settings."
            else "Could not access camera. Please check permissions.",
          step := .initial })
    else none
  | .geoResolve geo =>
    if s.geoPending then
      match geo with
      | .ok lat lon displayName stateField =>
        some { s with
            geoPending := false, loadingMessage := "",
            cmImageUrl := cmImageUrlFor stateField,
            location := some { latitude := lat, longitude := lon,
                               address := match displayName with
                                 | some d => if d = "" then "Address not found" else d
                                 | none => "Address not found" } }
      | .fetchFail _ _ =>
        some { s with geoPending := false, loadingMessage := "Pinpointing address..." }
      | .err code =>
        some (stopCamera { s with
            geoPending := false, error := geoErrorMessage code,
            step := .initial })
    else none
  | .capturePhoto ctxOk frame =>
    if s.step = .capture ∧ s.location ≠ none ∧ s.loadingMessage = "" then
      if ctxOk then
        some (stopCamera { s with capturedImage := some frame, step := .generating })
      else some (stopCamera { s with step := .generating })
    else none
  | .renderFire render =>
    if s.step = .generating ∧ s.capturedImage ≠ none ∧ s.location ≠ none then
      if s.location ≠ none ∧ s.capturedImage ≠ none ∧ s.issueType ≠ none then
        match render with
        | .ok dataUrl =>
          some { s with
              loadingMessage := "", generatedCertificate := some dataUrl,
              step := .result }
        | .libMissing =>
          some { s with
            error := "Image generation library not loaded yet. Please try again in a moment.",
            step := .initial }
        | .err =>
          some { s with
              loadingMessage := "Generating high-resolution image...",
              error := "An error occurred while generating the certificate image. This can happen with certain browsers or network conditions.",
              step := .initial }
      else
        some { s with
            error := "Failed to create certificate. Certificate template not found.",
            step := .initial }
    else none
  | .reset =>
    if s.step = .result then some (handleReset s) else none

/-- The states a session can be in: the initial render plus anything the
events can produce. -/
inductive Reachable : AppState → Prop
  | init : Reachable initState
  | next {s s' : AppState} {e : Event} :
      Reachable s → applyEvent s e = some s' → Reachable s'

/-! ### A concrete session trace

The spec's end-to-end happy path: choose "Pothole", camera granted, fix at
(12, 77), geocoder returns address "123 Main St" and state "Punjab",
capture a frame, rasterize.  These states witness reachability in several
theorems below. -/

/-- After "Report an Issue". -/
def sSelect : AppState := { initState with step := .selectIssue }

/-- After choosing "Pothole" and the camera being granted. -/
def sCamera : AppState :=
  { sSelect with
      issueType := some "Pothole", step := .capture,
      loadingMessage := "Fetching your location...", streamActive := true, geoPending := true }

/-- After the geolocation fix and the geocoder response ("Punjab"). -/
def sLocated : AppState :=
  { sCamera with
      geoPending := false, loadingMessage := "",
      cmImageUrl := cmImageUrlFor (some "Punjab"),
      location := some { latitude := 12, longitude := 77, address := "123 Main St" } }

/-- After capturing a frame. -/
def sShot : AppState :=
  { sLocated with
      capturedImage := some "data:image/jpeg;base64,demo",
      streamActive := false, step := .generating }

/-- After `toPng` succeeds: the result screen. -/
def sDone : AppState :=
  { sShot with generatedCertificate := some "data:image/png;base64,cert", step := .result }

/-- The same trace, except that `canvas.getContext("2d")` returned `null`
at the capture step. -/
def sStuck : AppState := { sLocated with streamActive := false, step := .generating }

/-! ## Lemmas

### Whitespace, words and trimming -/

/-- Splitting an all-whitespace list yields no words. -/
lemma wordsAux_ws (w : List Char) (h : ∀ c ∈ w, c.isWhitespace = true) :
    wordsAux w [] = [] := by
  induction w with
  | nil => rfl
  | cons c cs ih =>
    have hc : c.isWhitespace = true := h c (List.mem_cons_self c cs)
    simp only [wordsAux, hc, if_true, List.isEmpty_nil]
    exact ih fun d hd => h d (List.mem_cons_of_mem c hd)

/-- A pending word is flushed by trailing whitespace. -/
lemma wordsAux_ws_flush (w : List Char) (h : ∀ c ∈ w, c.isWhitespace = true)
    (acc : List Char) (hacc : acc.isEmpty = false) : wordsAux w acc = [acc.reverse] := by
  cases w with
  | nil => simp [wordsAux, hacc]
  | cons c cs =>
    have hc : c.isWhitespace = true := h c (List.mem_cons_self c cs)
    simp only [wordsAux, hc, if_true, hacc]
    rw [wordsAux_ws cs fun d hd => h d (List.mem_cons_of_mem c hd)]
    simp

/-- A whitespace prefix does not change the word split. -/
lemma wordsAux_ws_leading (w : List Char) (h : ∀ c ∈ w, c.isWhitespace = true)
    (l : List Char) : wordsAux (w ++ l) [] = wordsAux l [] := by
  induction w with
  | nil => rfl
  | cons c cs ih =>
    have hc : c.isWhitespace = true := h c (List.mem_cons_self c cs)
    simp only [List.cons_append, wordsAux, hc, if_true, List.isEmpty_nil]
    exact ih fun d hd => h d (List.mem_cons_of_mem c hd)

/-- A whitespace suffix does not change the word split. -/
lemma wordsAux_ws_suffix (w : List Char) (h : ∀ c ∈ w, c.isWhitespace = true) :
    ∀ (l : List Char) (acc : List Char), wordsAux (l ++ w) acc = wordsAux l acc := by
  intro l
  induction l with
  | nil =>
    intro acc
    cases hacc : acc.isEmpty with
    | true =>
      rw [List.isEmpty_iff] at hacc
      subst hacc
      simp only [List.nil_append]
      rw [wordsAux_ws w h]
      rfl
    | false =>
      simp only [List.nil_append]
      rw [wordsAux_ws_flush w h acc hacc]
      simp [wordsAux, hacc]
  | cons c cs ih =>
    intro acc
    simp only [List.cons_append, wordsAux]
    cases hc : c.isWhitespace with
    | true => cases acc.isEmpty <;> simp [ih]
    | false => simp only [Bool.false_eq_true, if_false]; exact ih (c :: acc)

/-- `trim` splits a list into a whitespace prefix, the trimmed core and a
whitespace suffix. -/
lemma trimChars_decomp (l : List Char) :
    ∃ w₁ w₂, (∀ c ∈ w₁, c.isWhitespace = true) ∧ (∀ c ∈ w₂, c.isWhitespace = true) ∧
      l = w₁ ++ trimChars l ++ w₂ := by
  refine ⟨l.takeWhile Char.isWhitespace,
    ((l.dropWhile Char.isWhitespace).reverse.takeWhile Char.isWhitespace).reverse, ?_, ?_, ?_⟩
  · intro c hc
    exact List.mem_takeWhile_imp hc
  · intro c hc
    rw [List.mem_reverse] at hc
    exact List.mem_takeWhile_imp hc
  · have h1 : l.takeWhile Char.isWhitespace ++ l.dropWhile Char.isWhitespace = l :=
      List.takeWhile_append_dropWhile _ _
    have h2 : (l.dropWhile Char.isWhitespace).reverse.takeWhile Char.isWhitespace ++
        (l.dropWhile Char.isWhitespace).reverse.dropWhile Char.isWhitespace =
        (l.dropWhile Char.isWhitespace).reverse :=
      List.takeWhile_append_dropWhile _ _
    have h3 : l.dropWhile Char.isWhitespace =
        trimChars l ++
          ((l.dropWhile Char.isWhitespace).reverse.takeWhile Char.isWhitespace).reverse := by
      have := congrArg List.reverse h2
      rw [List.reverse_append, List.reverse_reverse] at this
      exact this.symm
    calc l = l.takeWhile Char.isWhitespace ++ l.dropWhile Char.isWhitespace := h1.symm
      _ = l.takeWhile Char.isWhitespace ++ (trimChars l ++
            ((l.dropWhile Char.isWhitespace).reverse.takeWhile Char.isWhitespace).reverse) := by
            rw [← h3]
      _ = _ := by rw [List.append_assoc]

/-- Trimming does not change the word split. -/
lemma wordsOf_trimChars (l : List Char) : wordsOf (trimChars l) = wordsOf l := by
  obtain ⟨w₁, w₂, h₁, h₂, hl⟩ := trimChars_decomp l
  conv_rhs => rw [hl]
  unfold wordsOf
  rw [List.append_assoc, wordsAux_ws_leading w₁ h₁, wordsAux_ws_suffix w₂ h₂]

/-- Stripping keeps whitespace characters. -/
lemma stripNonAlpha_ws (w : List Char) (h : ∀ c ∈ w, c.isWhitespace = true) :
    stripNonAlpha w = w := by
  unfold stripNonAlpha
  rw [List.filter_eq_self]
  intro c hc
  unfold keepChar
  rw [h c hc, Bool.or_true]

/-- Trimming before stripping gives the same words as stripping alone. -/
lemma wordsOf_strip_trim (l : List Char) :
    wordsOf (stripNonAlpha (trimChars l)) = wordsOf (stripNonAlpha l) := by
  obtain ⟨w₁, w₂, h₁, h₂, hl⟩ := trimChars_decomp l
  conv_rhs => rw [hl]
  unfold stripNonAlpha
  rw [List.filter_append, List.filter_append]
  have e₁ : List.filter keepChar w₁ = w₁ := stripNonAlpha_ws w₁ h₁
  have e₂ : List.filter keepChar w₂ = w₂ := stripNonAlpha_ws w₂ h₂
  rw [e₁, e₂]
  unfold wordsOf
  rw [List.append_assoc, wordsAux_ws_leading w₁ h₁, wordsAux_ws_suffix w₂ h₂]

/-- The spec's step-5 tokenization of the step-2-normalized input computes
the same word set as the source's `normalizeAndTokenize`. -/
lemma specTokenize_normalizeState (s : String) :
    specTokenize (normalizeState s) = normalizeAndTokenize s := by
  unfold specTokenize normalizeState normalizeAndTokenize
  rw [wordsOf_strip_trim, wordsOf_trimChars]

/-! ### Cross-multiplication bridges for exact score comparison -/

/-- Strict comparison of scores by cross-multiplication. -/
lemma cross_lt_iff (i u j v : ℕ) (hu : 0 < u) (hv : 0 < v) :
    i * v < j * u ↔ (i : ℚ) / u < (j : ℚ) / v := by
  rw [div_lt_div_iff₀ (by exact_mod_cast hu) (by exact_mod_cast hv)]
  constructor
  · intro h
    exact_mod_cast h
  · intro h
    exact_mod_cast h

/-- Non-strict comparison of scores by cross-multiplication. -/
lemma cross_le_iff (i u j v : ℕ) (hu : 0 < u) (hv : 0 < v) :
    i * v ≤ j * u ↔ (i : ℚ) / u ≤ (j : ℚ) / v := by
  rw [div_le_div_iff₀ (by exact_mod_cast hu) (by exact_mod_cast hv)]
  constructor
  · intro h
    exact_mod_cast h
  · intro h
    exact_mod_cast h

/-- The `0.4` acceptance threshold by cross-multiplication. -/
lemma threshold_iff (i u : ℕ) (hu : 0 < u) :
    2 * u ≤ 5 * i ↔ (2 / 5 : ℚ) ≤ (i : ℚ) / u := by
  rw [div_le_div_iff₀ (by norm_num) (by exact_mod_cast hu : (0 : ℚ) < u)]
  constructor
  · intro h
    calc (2 : ℚ) * u = ((2 * u : ℕ) : ℚ) := by push_cast; ring
      _ ≤ ((5 * i : ℕ) : ℚ) := by exact_mod_cast h
      _ = (i : ℚ) * 5 := by push_cast; ring
  · intro h
    have : ((2 * u : ℕ) : ℚ) ≤ ((5 * i : ℕ) : ℚ) := by push_cast at h ⊢; linarith
    exact_mod_cast this

/-- Scores are non-negative. -/
lemma score_nonneg (i u : ℕ) : (0 : ℚ) ≤ (i : ℚ) / u :=
  div_nonneg (by exact_mod_cast Nat.zero_le i) (by exact_mod_cast Nat.zero_le u)

/-- A Jaccard score against an empty word set is zero. -/
lemma jaccardQ_empty_right (a : Finset (List Char)) : jaccardQ a ∅ = 0 := by
  unfold jaccardQ
  rw [Finset.inter_empty, Finset.card_empty]
  simp

/-- The union with a non-empty word set has positive cardinality. -/
lemma unionCard_pos (a b : Finset (List Char)) (hb : b ≠ ∅) : 0 < (a ∪ b).card := by
  rw [Finset.card_pos]
  exact Finset.Nonempty.mono Finset.subset_union_right (Finset.nonempty_iff_ne_empty.mpr hb)

/-- The Jaccard score of an entry with a non-empty key word set, as the
exact ratio of its cardinality pair. -/
lemma scoreOf_eq_pair (sw : Finset (List Char)) (kv : String × String) :
    scoreOf sw kv =
      ((sw ∩ normalizeAndTokenize kv.1).card : ℚ) / ((sw ∪ normalizeAndTokenize kv.1).card : ℚ) :=
  rfl

/-! ### The best-match fold -/

/-- With an empty input word set every step of the loop keeps the
accumulator (every intersection is empty, and a zero score never beats the
running best). -/
lemma fuzzyStep_empty_input (acc : String × ℕ × ℕ) (kv : String × String) :
    fuzzyStep ∅ acc kv = acc := by
  unfold fuzzyStep
  by_cases hkw : normalizeAndTokenize kv.1 = ∅
  · simp [hkw]
  · simp only [hkw, if_false]
    rw [Finset.empty_inter, Finset.card_empty]
    simp

/-- With an empty input word set the loop returns its initial accumulator. -/
lemma fuzzyBestG_empty_input (cat : List (String × String)) :
    fuzzyBestG cat ∅ = ("", 0, 1) := by
  unfold fuzzyBestG
  induction cat with
  | nil => rfl
  | cons kv rest ih => rw [List.foldl_cons, fuzzyStep_empty_input]; exact ih

/-- The first-maximal characterization of the best-match loop: starting
from accumulator `(k, i, u)` (score `i/u`, `u > 0`), the loop either keeps
the accumulator — and then no entry beats score `i/u` — or returns the
first entry whose score strictly exceeds `i/u` and every later score, with
its exact cardinality pair; every earlier entry scores strictly below it
and every later entry at most it. -/
lemma fuzzyFold_argmax (sw : Finset (List Char)) :
    ∀ (l : List (String × String)) (k : String) (i u : ℕ), 0 < u →
      0 < (l.foldl (fuzzyStep sw) (k, i, u)).2.2 ∧
      ((l.foldl (fuzzyStep sw) (k, i, u) = (k, i, u) ∧
          ∀ kv ∈ l, scoreOf sw kv ≤ (i : ℚ) / u) ∨
        ∃ l₁ kv l₂, l = l₁ ++ kv :: l₂ ∧
          (l.foldl (fuzzyStep sw) (k, i, u)).1 = kv.1 ∧
          (l.foldl (fuzzyStep sw) (k, i, u)).2.1 = (sw ∩ normalizeAndTokenize kv.1).card ∧
          (l.foldl (fuzzyStep sw) (k, i, u)).2.2 = (sw ∪ normalizeAndTokenize kv.1).card ∧
          normalizeAndTokenize kv.1 ≠ ∅ ∧
          (i : ℚ) / u < scoreOf sw kv ∧
          (∀ y ∈ l₁, scoreOf sw y < scoreOf sw kv) ∧
          (∀ y ∈ l₂, scoreOf sw y ≤ scoreOf sw kv)) := by
  intro l
  induction l with
  | nil =>
    intro k i u hu
    exact ⟨hu, Or.inl ⟨rfl, by simp⟩⟩
  | cons x rest ih =>
    intro k i u hu
    rw [List.foldl_cons]
    by_cases hkw : normalizeAndTokenize x.1 = ∅
    · have hstep : fuzzyStep sw (k, i, u) x = (k, i, u) := by
        unfold fuzzyStep
        simp [hkw]
      rw [hstep]
      have hx0 : scoreOf sw x = 0 := by
        unfold scoreOf
        rw [hkw]
        exact jaccardQ_empty_right sw
      obtain ⟨hpos, hdisj⟩ := ih k i u hu
      refine ⟨hpos, ?_⟩
      rcases hdisj with ⟨hfold, hall⟩ | ⟨l₁, kv, l₂, hsplit, h1, h2, h3, hkv, hacc, hbef, haft⟩
      · refine Or.inl ⟨hfold, ?_⟩
        intro y hy
        rcases List.mem_cons.mp hy with hy | hy
        · subst hy
          rw [hx0]
          exact score_nonneg i u
        · exact hall y hy
      · refine Or.inr ⟨x :: l₁, kv, l₂, by rw [hsplit, List.cons_append], h1, h2, h3, hkv, hacc, ?_, haft⟩
        intro y hy
        rcases List.mem_cons.mp hy with hy | hy
        · subst hy
          rw [hx0]
          exact lt_of_le_of_lt (score_nonneg i u) hacc
        · exact hbef y hy
    · have hu' : 0 < (sw ∪ normalizeAndTokenize x.1).card := unionCard_pos _ _ hkw
      have hxscore : scoreOf sw x =
          ((sw ∩ normalizeAndTokenize x.1).card : ℚ) / ((sw ∪ normalizeAndTokenize x.1).card : ℚ) :=
        rfl
      by_cases hlt :
          i * (sw ∪ normalizeAndTokenize x.1).card < (sw ∩ normalizeAndTokenize x.1).card * u
      · have hstep : fuzzyStep sw (k, i, u) x =
            (x.1, (sw ∩ normalizeAndTokenize x.1).card, (sw ∪ normalizeAndTokenize x.1).card) := by
          unfold fuzzyStep
          simp [hkw, hlt]
        rw [hstep]
        have hgain : (i : ℚ) / u < scoreOf sw x := by
          rw [hxscore]
          exact (cross_lt_iff _ _ _ _ hu hu').mp hlt
        obtain ⟨hpos, hdisj⟩ := ih x.1 _ _ hu'
        refine ⟨hpos, ?_⟩
        rcases hdisj with ⟨hfold, hall⟩ | ⟨l₁, kv, l₂, hsplit, h1, h2, h3, hkv, hacc, hbef, haft⟩
        · refine Or.inr ⟨[], x, rest, rfl, ?_, ?_, ?_, hkw, hgain, by simp, ?_⟩
          · rw [hfold]
          · rw [hfold]
          · rw [hfold]
          · intro y hy
            rw [← hxscore] at hall
            exact hall y hy
        · refine Or.inr ⟨x :: l₁, kv, l₂, by rw [hsplit, List.cons_append], h1, h2, h3, hkv, ?_, ?_, haft⟩
          · rw [← hxscore] at hacc
            exact lt_trans hgain hacc
          · intro y hy
            rcases List.mem_cons.mp hy with hy | hy
            · subst hy
              rw [← hxscore] at hacc
              exact hacc
            · exact hbef y hy
      · have hstep : fuzzyStep sw (k, i, u) x = (k, i, u) := by
          unfold fuzzyStep
          simp [hkw, hlt]
        rw [hstep]
        have hxle : scoreOf sw x ≤ (i : ℚ) / u := by
          rw [hxscore]
          exact (cross_le_iff _ _ _ _ hu' hu).mp (Nat.le_of_not_lt hlt)
        obtain ⟨hpos, hdisj⟩ := ih k i u hu
        refine ⟨hpos, ?_⟩
        rcases hdisj with ⟨hfold, hall⟩ | ⟨l₁, kv, l₂, hsplit, h1, h2, h3, hkv, hacc, hbef, haft⟩
        · refine Or.inl ⟨hfold, ?_⟩
          intro y hy
          rcases List.mem_cons.mp hy with hy | hy
          · subst hy
            exact hxle
          · exact hall y hy
        · refine Or.inr ⟨x :: l₁, kv, l₂, by rw [hsplit, List.cons_append], h1, h2, h3, hkv, hacc, ?_, haft⟩
          intro y hy
          rcases List.mem_cons.mp hy with hy | hy
          · subst hy
            exact lt_of_le_of_lt hxle hacc
          · exact hbef y hy

/-! ### Facts about the catalog -/

/-- No two catalog keys normalize to the same string. -/
lemma CM_DATA_norm_nodup : (CM_DATA.map fun kv => normalizeState kv.1).Nodup := by decide

/-- Catalog keys are distinct. -/
lemma CM_DATA_keys_nodup : (CM_DATA.map Prod.fst).Nodup := by decide

/-- The only catalog entry with empty imagery is Manipur. -/
lemma CM_DATA_empty_only_manipur : ∀ kv ∈ CM_DATA, kv.2 = "" → kv = ("Manipur", "") := by decide

/-! ### What a successful match returns -/

/-- A value returned by the substring pass is the non-empty imagery of a
catalog entry. -/
lemma substringPassG_some {cat : List (String × String)} {ns : List Char} {v : String}
    (h : substringPassG cat ns = some v) : ∃ kv, kv ∈ cat ∧ kv.2 = v ∧ v ≠ "" := by
  unfold substringPassG at h
  split at h
  next kv hE =>
    split at h
    next hv =>
      injection h with h
      exact ⟨kv, List.mem_of_find?_eq_some hE, h, h ▸ hv⟩
    next hv => exact absurd h (by simp)
  next => exact absurd h (by simp)

/-- A value returned by `getCMImageUrl` is the non-empty imagery of a
catalog entry. -/
lemma getCMImageUrlG_some {cat : List (String × String)} {st : Option String} {v : String}
    (h : getCMImageUrlG cat st = some v) : ∃ kv, kv ∈ cat ∧ kv.2 = v ∧ v ≠ "" := by
  unfold getCMImageUrlG at h
  split at h
  next => exact absurd h (by simp)
  next s =>
    split at h
    next => exact absurd h (by simp)
    next hs =>
      unfold exactThenSubstringG at h
      split at h
      next kv hE =>
        split at h
        next hv =>
          injection h with h
          exact ⟨kv, List.mem_of_find?_eq_some hE, h, h ▸ hv⟩
        next hv => exact substringPassG_some h
      next => exact substringPassG_some h

/-- A value returned by `getCMImageUrl2` is the non-empty imagery of a
catalog entry. -/
lemma getCMImageUrl2G_some {cat : List (String × String)} {st : Option String} {v : String}
    (h : getCMImageUrl2G cat st = some v) : ∃ kv, kv ∈ cat ∧ kv.2 = v ∧ v ≠ "" := by
  unfold getCMImageUrl2G at h
  split at h
  next => exact absurd h (by simp)
  next s =>
    split at h
    next => exact absurd h (by simp)
    next hs =>
      split at h
      next => exact absurd h (by simp)
      next hsw =>
        unfold fuzzyOfG at h
        split at h
        next hacc =>
          split at h
          next kv hF =>
            split at h
            next hv =>
              injection h with h
              exact ⟨kv, List.mem_of_find?_eq_some hF, h, h ▸ hv⟩
            next hv => exact absurd h (by simp)
          next => exact absurd h (by simp)
        next hacc => exact absurd h (by simp)

/-- An entry sharing no word with the input scores below the threshold. -/
lemma scoreOf_lt_threshold_of_inter_zero (sw : Finset (List Char)) (kv : String × String)
    (h : (sw ∩ normalizeAndTokenize kv.1).card = 0) : scoreOf sw kv < 2 / 5 := by
  rw [scoreOf_eq_pair, h]
  rw [Nat.cast_zero, zero_div]
  norm_num

/-! ## Claims -/

/-- Claim C8: for every empty or absent input (`null`, `undefined`, or the
empty string), both region-matching functions and their combination return
"no match" (`null`), and they do so for every catalog — the catalog is
never consulted. -/
theorem c8_empty_or_absent_input_no_match :
    ∀ cat : List (String × String),
      getCMImageUrlG cat none = none ∧ getCMImageUrlG cat (some "") = none ∧
      getCMImageUrl2G cat none = none ∧ getCMImageUrl2G cat (some "") = none ∧
      cmImageUrlForG cat none = none ∧ cmImageUrlForG cat (some "") = none := by
  intro cat
  refine ⟨rfl, ?_, rfl, ?_, rfl, ?_⟩ <;> simp [getCMImageUrlG, getCMImageUrl2G, cmImageUrlForG]

/-- Claim C1, as stated, is false at the `Manipur` entry: the input
`"Manipur"` normalizes to the normalized key of the catalog entry
`("Manipur", "")`, yet the matcher returns `null` rather than that entry's
(empty) imagery, because the exact pass treats the empty string as falsy
and falls through. -/
theorem c1_counterexample :
    ("Manipur", "") ∈ CM_DATA ∧
    getCMImageUrl (some "Manipur") = none ∧
    ¬getCMImageUrl (some "Manipur") = some "" ∧
    cmImageUrlFor (some "Manipur") = none := by decide

/-- Claim C1 (amended): for every non-empty input string that normalizes to
the normalized key of a catalog entry, the matcher returns that entry's
imagery when the imagery is non-empty; when the imagery is the empty string
(the `Manipur` entry) the matcher instead returns "no match" (`null`). -/
theorem c1_exact_match_amended (kv : String × String) (s : String) (hmem : kv ∈ CM_DATA)
    (hs : ¬s = "") (hn : normalizeState s = normalizeState kv.1) :
    (kv.2 ≠ "" → getCMImageUrl (some s) = some kv.2) ∧
    (kv.2 = "" → getCMImageUrl (some s) = none) := by
  have hfind : (CM_DATA.find? fun e => normalizeState e.1 = normalizeState s) = some kv := by
    cases hE : CM_DATA.find? fun e => normalizeState e.1 = normalizeState s with
    | none =>
      have := List.find?_eq_none.mp hE kv hmem
      rw [hn] at this
      simp at this
    | some x =>
      have hps := List.find?_some hE
      simp only [decide_eq_true_eq] at hps
      have hx : normalizeState x.1 = normalizeState s := hps
      have hxkv : x = kv :=
        List.inj_on_of_nodup_map CM_DATA_norm_nodup (List.mem_of_find?_eq_some hE) hmem
          (by rw [hx, hn])
      rw [hxkv]
  have hbody : getCMImageUrl (some s) =
      if kv.2 ≠ "" then some kv.2 else substringPassG CM_DATA (normalizeState s) := by
    show getCMImageUrlG CM_DATA (some s) = _
    simp only [getCMImageUrlG, exactThenSubstringG, hfind, if_neg hs]
  constructor
  · intro hv
    rw [hbody, if_pos hv]
  · intro hv
    have hkv : kv = ("Manipur", "") := CM_DATA_empty_only_manipur kv hmem hv
    rw [hbody, if_neg (by simp [hv]), hn, hkv]
    decide

/-- Witness for the amended claim C1 at concrete inputs: `"MANIPUR"`
(empty imagery, no match) and `"DELHI"` (non-empty imagery returned). -/
theorem c1_exact_match_amended_witness :
    getCMImageUrl (some "MANIPUR") = none ∧
    getCMImageUrl (some "DELHI") =
      some "https://upload.wikimedia.org/wikipedia/commons/7/72/Chief_Minister_of_Delhi%2C_Smt._Rekha_Gupta.jpg" := by
  constructor
  · exact (c1_exact_match_amended ("Manipur", "") "MANIPUR" (by decide) (by decide)
      (by decide)).2 rfl
  · exact (c1_exact_match_amended
      ("Delhi",
        "https://upload.wikimedia.org/wikipedia/commons/7/72/Chief_Minister_of_Delhi%2C_Smt._Rekha_Gupta.jpg")
      "DELHI" (by decide) (by decide) (by decide)).1 (by decide)

/-- Claim C9: the Jaccard score of the token-overlap tier depends only on
the normalized word sets — two inputs with equal word sets score equally
against every catalog key — and the score is symmetric in its two
arguments. -/
theorem c9_jaccard_symmetric :
    (∀ s t : String, normalizeAndTokenize s = normalizeAndTokenize t →
      ∀ key : String,
        jaccardQ (normalizeAndTokenize s) (normalizeAndTokenize key) =
          jaccardQ (normalizeAndTokenize t) (normalizeAndTokenize key)) ∧
    (∀ a b : String,
      jaccardQ (normalizeAndTokenize a) (normalizeAndTokenize b) =
        jaccardQ (normalizeAndTokenize b) (normalizeAndTokenize a)) := by
  constructor
  · intro s t h key
    rw [h]
  · intro a b
    unfold jaccardQ
    rw [Finset.inter_comm, Finset.union_comm]

/-- Witness for claim C9: `"jammu kashmir"` and `"kashmir jammu"` have the
same word set, hence the same score against the key `"Jammu & Kashmir"`. -/
theorem c9_jaccard_symmetric_witness :
    jaccardQ (normalizeAndTokenize "jammu kashmir") (normalizeAndTokenize "Jammu & Kashmir") =
      jaccardQ (normalizeAndTokenize "kashmir jammu") (normalizeAndTokenize "Jammu & Kashmir") :=
  c9_jaccard_symmetric.1 "jammu kashmir" "kashmir jammu" (by decide) "Jammu & Kashmir"

/-- Claim C2: in the token-overlap fallback, the loop selects the catalog
entry with the strictly highest Jaccard score — ties broken by catalog
iteration order, the first maximal score winning — and a match is returned
only when that score is at least `0.4`; when every entry scores below
`0.4` the result is "no match". -/
theorem c2_token_overlap_fallback (s : String) :
    ((∀ kv ∈ CM_DATA, scoreOf (normalizeAndTokenize s) kv < 2 / 5) →
      getCMImageUrl2 (some s) = none) ∧
    (∀ v, getCMImageUrl2 (some s) = some v →
      ∃ l₁ kv l₂, CM_DATA = l₁ ++ kv :: l₂ ∧ v = kv.2 ∧
        (2 / 5 : ℚ) ≤ scoreOf (normalizeAndTokenize s) kv ∧
        (∀ y ∈ l₁, scoreOf (normalizeAndTokenize s) y < scoreOf (normalizeAndTokenize s) kv) ∧
        ∀ y ∈ l₂, scoreOf (normalizeAndTokenize s) y ≤ scoreOf (normalizeAndTokenize s) kv) := by
  by_cases hs : s = ""
  · subst hs
    constructor
    · intro _
      rfl
    · intro v h
      rw [show getCMImageUrl2 (some "") = none from rfl] at h
      exact absurd h (by simp)
  by_cases hsw : normalizeAndTokenize s = ∅
  · have hres : getCMImageUrl2 (some s) = none := by
      show getCMImageUrl2G CM_DATA (some s) = none
      simp only [getCMImageUrl2G, if_neg hs, hsw, if_true]
    constructor
    · intro _
      exact hres
    · intro v h
      rw [hres] at h
      exact absurd h (by simp)
  have hres : getCMImageUrl2 (some s) = fuzzyOfG CM_DATA (normalizeAndTokenize s) := by
    show getCMImageUrl2G CM_DATA (some s) = _
    simp only [getCMImageUrl2G, if_neg hs, if_neg hsw]
  obtain ⟨hpos, hdisj⟩ := fuzzyFold_argmax (normalizeAndTokenize s) CM_DATA "" 0 1 one_pos
  have hfb : fuzzyBestG CM_DATA (normalizeAndTokenize s) =
      CM_DATA.foldl (fuzzyStep (normalizeAndTokenize s)) ("", 0, 1) := rfl
  constructor
  · intro hall
    rw [hres]
    rcases hdisj with ⟨hfold, _⟩ | ⟨l₁, kv, l₂, hsplit, h1, h2, h3, hkv, hacc, hbef, haft⟩
    · simp only [fuzzyOfG, hfb, hfold]
      norm_num
    · have hmem : kv ∈ CM_DATA := by
        rw [hsplit]
        exact List.mem_append_right _ (List.mem_cons_self _ _)
      have hu' : 0 < (normalizeAndTokenize s ∪ normalizeAndTokenize kv.1).card :=
        unionCard_pos _ _ hkv
      have hnacc : ¬(2 * (fuzzyBestG CM_DATA (normalizeAndTokenize s)).2.2 ≤
          5 * (fuzzyBestG CM_DATA (normalizeAndTokenize s)).2.1) := by
        intro hcontra
        rw [hfb, h2, h3] at hcontra
        have hth := (threshold_iff _ _ hu').mp hcontra
        rw [← scoreOf_eq_pair] at hth
        exact absurd hth (not_le.mpr (hall kv hmem))
      simp only [fuzzyOfG, if_neg hnacc]
  · intro v h
    rw [hres] at h
    simp only [fuzzyOfG] at h
    split at h
    next hacc2 =>
      split at h
      next kv'' hF =>
        split at h
        next hv =>
          injection h with h
          rcases hdisj with ⟨hfold, _⟩ | ⟨l₁, kv, l₂, hsplit, h1, h2, h3, hkv, hacc, hbef, haft⟩
          · rw [hfb, hfold] at hacc2
            norm_num at hacc2
          · have hmem : kv ∈ CM_DATA := by
              rw [hsplit]
              exact List.mem_append_right _ (List.mem_cons_self _ _)
            have hu' : 0 < (normalizeAndTokenize s ∪ normalizeAndTokenize kv.1).card :=
              unionCard_pos _ _ hkv
            have hps := List.find?_some hF
            simp only [decide_eq_true_eq] at hps
            have hkey : kv''.1 = kv.1 := by
              rw [hps, hfb, h1]
            have hkv'' : kv'' = kv :=
              List.inj_on_of_nodup_map CM_DATA_keys_nodup (List.mem_of_find?_eq_some hF) hmem
                hkey
            rw [hfb, h2, h3] at hacc2
            have hth := (threshold_iff _ _ hu').mp hacc2
            rw [← scoreOf_eq_pair] at hth
            refine ⟨l₁, kv, l₂, hsplit, ?_, hth, hbef, haft⟩
            rw [← h, hkv'']
        next hv => exact absurd h (by simp)
      next hF => exact absurd h (by simp)
    next hacc2 => exact absurd h (by simp)

/-- Witness for claim C2: `"Zxyland"` shares no word with any key, so every
score is below the threshold and there is no match; `"Punjab state"`
matches the Punjab entry, whose score `1/2` passes the threshold. -/
theorem c2_token_overlap_fallback_witness :
    getCMImageUrl2 (some "Zxyland") = none ∧
    ∃ l₁ kv l₂, CM_DATA = l₁ ++ kv :: l₂ ∧
      ("https://upload.wikimedia.org/wikipedia/commons/f/f8/Bhagwant_Mann.png" : String) = kv.2 ∧
      (2 / 5 : ℚ) ≤ scoreOf (normalizeAndTokenize "Punjab state") kv ∧
      (∀ y ∈ l₁, scoreOf (normalizeAndTokenize "Punjab state") y <
        scoreOf (normalizeAndTokenize "Punjab state") kv) ∧
      ∀ y ∈ l₂, scoreOf (normalizeAndTokenize "Punjab state") y ≤
        scoreOf (normalizeAndTokenize "Punjab state") kv := by
  constructor
  · refine (c2_token_overlap_fallback "Zxyland").1 ?_
    have hall : ∀ kv ∈ CM_DATA,
        (normalizeAndTokenize "Zxyland" ∩ normalizeAndTokenize kv.1).card = 0 := by decide
    intro kv hkv
    exact scoreOf_lt_threshold_of_inter_zero _ kv (hall kv hkv)
  · exact (c2_token_overlap_fallback "Punjab state").2 _ (by decide)

/-- Claim C10: the combined region matcher returns either `null` or the
non-empty imagery of some catalog entry — never the empty string — so the
matched `Manipur` entry (whose imagery is empty) is indistinguishable at
the output from "no match". -/
theorem c10_combined_output_nonempty :
    (∀ st : Option String, cmImageUrlFor st = none ∨
      ∃ kv, kv ∈ CM_DATA ∧ kv.2 ≠ "" ∧ cmImageUrlFor st = some kv.2) ∧
    cmImageUrlFor (some "Manipur") = none := by
  constructor
  · intro st
    cases h : cmImageUrlFor st with
    | none => exact Or.inl rfl
    | some v =>
      refine Or.inr ?_
      have h' : cmImageUrlForG CM_DATA st = some v := h
      unfold cmImageUrlForG at h'
      split at h'
      next w hw =>
        injection h' with h'
        obtain ⟨kv, hm, he, hne⟩ := getCMImageUrlG_some hw
        refine ⟨kv, hm, ?_, ?_⟩
        · rw [he]
          exact hne
        · rw [he, h']
      next hw =>
        obtain ⟨kv, hm, he, hne⟩ := getCMImageUrl2G_some h'
        refine ⟨kv, hm, ?_, ?_⟩
        · rw [he]
          exact hne
        · rw [he]
  · decide

/-! ### The combined matcher against the spec's three-tier algorithm -/

/-- One loop step of the spec's fallback tier equals one loop step of
`getCMImageUrl2`: the tokenizations agree, and an entry with an empty word
set — which the source skips — scores `0/u` and can never beat the running
best anyway. -/
lemma specFuzzyStep_eq (sw : Finset (List Char)) : specFuzzyStep sw = fuzzyStep sw := by
  funext acc kv
  unfold specFuzzyStep fuzzyStep
  rw [specTokenize_normalizeState]
  by_cases hkw : normalizeAndTokenize kv.1 = ∅
  · simp [hkw]
  · simp [hkw]

/-- The acceptance tail of `getCMImageUrl2` is the spec's acceptance tail
with an empty returned imagery collapsed to "no match". -/
lemma accept_drop (cat : List (String × String)) (best : String × ℕ × ℕ) :
    (if 2 * best.2.2 ≤ 5 * best.2.1 then
      match cat.find? fun kv => kv.1 = best.1 with
      | some kv => if kv.2 ≠ "" then some kv.2 else none
      | none => none
    else none) =
    dropEmptyImage (if 2 * best.2.2 ≤ 5 * best.2.1 then
      (cat.find? fun kv => kv.1 = best.1).map (fun kv => kv.2) else none) := by
  by_cases hacc : 2 * best.2.2 ≤ 5 * best.2.1
  · rw [if_pos hacc, if_pos hacc]
    cases cat.find? fun kv => kv.1 = best.1 with
    | none => rfl
    | some kv =>
      by_cases hv : kv.2 = ""
      · simp [dropEmptyImage, hv]
      · simp [dropEmptyImage, hv]
  · rw [if_neg hacc, if_neg hacc]
    rfl

/-- The spec's fallback tier, rewritten over the source's tokenization and
loop. -/
lemma specTier3_eq (s : String) :
    specTier3 s =
      (if 2 * (fuzzyBestG CM_DATA (normalizeAndTokenize s)).2.2 ≤
          5 * (fuzzyBestG CM_DATA (normalizeAndTokenize s)).2.1 then
        (CM_DATA.find? fun kv =>
          kv.1 = (fuzzyBestG CM_DATA (normalizeAndTokenize s)).1).map (fun kv => kv.2)
      else none) := by
  unfold specTier3 specBest fuzzyBestG
  rw [specTokenize_normalizeState, specFuzzyStep_eq]

/-- The source's token-overlap function computes the spec's fallback tier
with an empty accepted imagery collapsed to "no match". -/
lemma getCMImageUrl2_eq_drop_tier3 (s : String) (hs : ¬s = "") :
    getCMImageUrl2 (some s) = dropEmptyImage (specTier3 s) := by
  rw [specTier3_eq]
  by_cases hsw : normalizeAndTokenize s = ∅
  · have hb : fuzzyBestG CM_DATA (normalizeAndTokenize s) = ("", 0, 1) := by
      rw [hsw]
      exact fuzzyBestG_empty_input CM_DATA
    have hlhs : getCMImageUrl2 (some s) = none := by
      show getCMImageUrl2G CM_DATA (some s) = none
      simp only [getCMImageUrl2G, if_neg hs, hsw, if_true]
    rw [hlhs, hb]
    rw [if_neg (by norm_num)]
    rfl
  · have hlhs : getCMImageUrl2 (some s) = fuzzyOfG CM_DATA (normalizeAndTokenize s) := by
      show getCMImageUrl2G CM_DATA (some s) = _
      simp only [getCMImageUrl2G, if_neg hs, if_neg hsw]
    rw [hlhs]
    unfold fuzzyOfG
    generalize fuzzyBestG CM_DATA (normalizeAndTokenize s) = best
    exact accept_drop CM_DATA best

/-- After a failed (or unusable) exact pass, the source's remaining passes
compute the spec's tiers 2–3 with empty imagery collapsed to "no match". -/
lemma substring_tail_eq (s : String) (hs : ¬s = "") :
    (match substringPassG CM_DATA (normalizeState s) with
      | some v => some v
      | none => getCMImageUrl2 (some s)) =
    dropEmptyImage (specTier2 (normalizeState s) s) := by
  unfold substringPassG specTier2
  cases hP : CM_DATA.find? fun kv =>
      containsSub (normalizeState s) (normalizeState kv.1) ||
        containsSub (normalizeState kv.1) (normalizeState s) with
  | none =>
    show getCMImageUrl2 (some s) = dropEmptyImage (specTier3 s)
    exact getCMImageUrl2_eq_drop_tier3 s hs
  | some kv =>
    by_cases hv : kv.2 = ""
    · show (match (if kv.2 ≠ "" then some kv.2 else none) with
          | some v => some v
          | none => getCMImageUrl2 (some s)) =
        dropEmptyImage (if kv.2 ≠ "" then some kv.2 else specTier3 s)
      rw [if_neg (by simp [hv]), if_neg (by simp [hv])]
      show getCMImageUrl2 (some s) = dropEmptyImage (specTier3 s)
      exact getCMImageUrl2_eq_drop_tier3 s hs
    · show (match (if kv.2 ≠ "" then some kv.2 else none) with
          | some v => some v
          | none => getCMImageUrl2 (some s)) =
        dropEmptyImage (if kv.2 ≠ "" then some kv.2 else specTier3 s)
      rw [if_pos hv, if_pos hv]
      simp [dropEmptyImage, hv]

/-- Claim C3, as stated, fails at input `"Manipur"`: the spec's three-tier
algorithm accepts the Manipur entry in its fallback tier and returns its
(empty) imagery, while the source's combination returns `null`. -/
theorem c3_counterexample :
    specRegionMatch (some "Manipur") = some "" ∧
    cmImageUrlFor (some "Manipur") = none ∧
    ¬cmImageUrlFor (some "Manipur") = specRegionMatch (some "Manipur") := by decide

/-- Claim C3 (amended): for every input, the source's combination — the
exact/substring function, falling back to the token-overlap function when
it returns no usable image — computes exactly the spec §4.2 three-tier
algorithm with one coercion: a tier-3 match whose imagery is the empty
string is reported as "no match" (`null`) by the source. -/
theorem c3_refinement_amended (st : Option String) :
    cmImageUrlFor st = dropEmptyImage (specRegionMatch st) := by
  cases st with
  | none => rfl
  | some s =>
    by_cases hs : s = ""
    · subst hs
      rfl
    · have hcomb : cmImageUrlFor (some s) =
          (match exactThenSubstringG CM_DATA (normalizeState s) with
            | some v => some v
            | none => getCMImageUrl2 (some s)) := by
        show cmImageUrlForG CM_DATA (some s) = _
        unfold cmImageUrlForG
        simp only [getCMImageUrlG, if_neg hs]
        rfl
      rw [hcomb]
      simp only [specRegionMatch, if_neg hs]
      unfold exactThenSubstringG
      cases hE : CM_DATA.find? fun kv => normalizeState kv.1 = normalizeState s with
      | none =>
        exact substring_tail_eq s hs
      | some kv =>
        by_cases hv : kv.2 = ""
        · show (match (if kv.2 ≠ "" then some kv.2 else substringPassG CM_DATA (normalizeState s))
              with
              | some v => some v
              | none => getCMImageUrl2 (some s)) =
            dropEmptyImage (if kv.2 ≠ "" then some kv.2 else specTier2 (normalizeState s) s)
          rw [if_neg (by simp [hv]), if_neg (by simp [hv])]
          exact substring_tail_eq s hs
        · show (match (if kv.2 ≠ "" then some kv.2 else substringPassG CM_DATA (normalizeState s))
              with
              | some v => some v
              | none => getCMImageUrl2 (some s)) =
            dropEmptyImage (if kv.2 ≠ "" then some kv.2 else specTier2 (normalizeState s) s)
          rw [if_pos hv, if_pos hv]
          simp [dropEmptyImage, hv]

/-! ### Reachability of the demo trace -/

lemma reach_sSelect : Reachable sSelect :=
  Reachable.next Reachable.init
    (show applyEvent initState Event.goSelect = some sSelect from rfl)

lemma reach_sCamera : Reachable sCamera :=
  Reachable.next reach_sSelect
    (show applyEvent sSelect (Event.chooseIssue "Pothole" CamResult.ok) = some sCamera from rfl)

lemma reach_sLocated : Reachable sLocated :=
  Reachable.next reach_sCamera
    (show applyEvent sCamera
        (Event.geoResolve (GeoResult.ok 12 77 (some "123 Main St") (some "Punjab"))) =
      some sLocated from rfl)

lemma reach_sShot : Reachable sShot :=
  Reachable.next reach_sLocated
    (show applyEvent sLocated (Event.capturePhoto true "data:image/jpeg;base64,demo") =
      some sShot from rfl)

lemma reach_sDone : Reachable sDone :=
  Reachable.next reach_sShot
    (show applyEvent sShot (Event.renderFire (RenderResult.ok "data:image/png;base64,cert")) =
      some sDone from rfl)

/-! ### The certificate invariant -/

/-- In every reachable state, a produced certificate implies that the
location, the captured image and the issue type are all present. -/
lemma cert_invariant : ∀ s : AppState, Reachable s →
    (s.generatedCertificate ≠ none →
      s.location ≠ none ∧ s.capturedImage ≠ none ∧ s.issueType ≠ none) := by
  intro s h
  induction h with
  | init => intro hc; exact absurd rfl hc
  | @next s s' e hr hstep ih =>
    intro hc
    cases e with
    | goSelect =>
      simp only [applyEvent] at hstep
      split at hstep
      next hcond =>
        injection hstep with hstep
        subst hstep
        exact ih hc
      next => exact absurd hstep (by simp)
    | chooseIssue issue cam =>
      simp only [applyEvent] at hstep
      split at hstep
      next hcond =>
        cases cam with
        | ok =>
          injection hstep with hstep
          subst hstep
          exact ⟨(ih hc).1, (ih hc).2.1, Option.some_ne_none _⟩
        | err notAllowed =>
          injection hstep with hstep
          subst hstep
          exact ⟨(ih hc).1, (ih hc).2.1, Option.some_ne_none _⟩
      next => exact absurd hstep (by simp)
    | geoResolve geo =>
      simp only [applyEvent] at hstep
      split at hstep
      next hpend =>
        cases geo with
        | ok lat lon dn st =>
          injection hstep with hstep
          subst hstep
          exact ⟨Option.some_ne_none _, (ih hc).2.1, (ih hc).2.2⟩
        | fetchFail lat lon =>
          injection hstep with hstep
          subst hstep
          exact ih hc
        | err code =>
          injection hstep with hstep
          subst hstep
          exact ih hc
      next => exact absurd hstep (by simp)
    | capturePhoto ctxOk frame =>
      simp only [applyEvent] at hstep
      split at hstep
      next hcond =>
        split at hstep
        next =>
          injection hstep with hstep
          subst hstep
          exact ⟨hcond.2.1, Option.some_ne_none _, (ih hc).2.2⟩
        next =>
          injection hstep with hstep
          subst hstep
          exact ⟨hcond.2.1, (ih hc).2.1, (ih hc).2.2⟩
      next => exact absurd hstep (by simp)
    | renderFire render =>
      simp only [applyEvent] at hstep
      split at hstep
      next hguard =>
        split at hstep
        next htmpl =>
          cases render with
          | ok dataUrl =>
            injection hstep with hstep
            subst hstep
            exact htmpl
          | libMissing =>
            injection hstep with hstep
            subst hstep
            exact ih hc
          | err =>
            injection hstep with hstep
            subst hstep
            exact ih hc
        next htmpl =>
          injection hstep with hstep
          subst hstep
          exact ih hc
      next => exact absurd hstep (by simp)
    | reset =>
      simp only [applyEvent] at hstep
      split at hstep
      next hcond =>
        injection hstep with hstep
        subst hstep
        exact absurd rfl hc
      next => exact absurd hstep (by simp)

/-- Claim C4: in every reachable state, the `Rendering → Result` transition
fires only when `location`, `capturedImage` and `issueType` are all
non-null (with any of them null the render effect errors back to `Idle`
instead), and more generally a state holding a rendered certificate has all
three non-null. -/
theorem c4_result_requires_all_fields :
    (∀ s e s', Reachable s → applyEvent s e = some s' →
      s.step = AppStep.generating → s'.step = AppStep.result →
      s.location ≠ none ∧ s.capturedImage ≠ none ∧ s.issueType ≠ none) ∧
    (∀ s, Reachable s → s.generatedCertificate ≠ none →
      s.location ≠ none ∧ s.capturedImage ≠ none ∧ s.issueType ≠ none) := by
  constructor
  · intro s e s' hr hstep hgen hres
    cases e with
    | goSelect =>
      simp only [applyEvent] at hstep
      split at hstep
      next hcond =>
        rw [hgen] at hcond
        exact absurd hcond (by decide)
      next => exact absurd hstep (by simp)
    | chooseIssue issue cam =>
      simp only [applyEvent] at hstep
      split at hstep
      next hcond =>
        rw [hgen] at hcond
        exact absurd hcond (by decide)
      next => exact absurd hstep (by simp)
    | geoResolve geo =>
      simp only [applyEvent] at hstep
      split at hstep
      next hpend =>
        cases geo with
        | ok lat lon dn st =>
          injection hstep with hstep
          subst hstep
          simp [hgen] at hres
        | fetchFail lat lon =>
          injection hstep with hstep
          subst hstep
          simp [hgen] at hres
        | err code =>
          injection hstep with hstep
          subst hstep
          simp [stopCamera] at hres
      next => exact absurd hstep (by simp)
    | capturePhoto ctxOk frame =>
      simp only [applyEvent] at hstep
      split at hstep
      next hcond =>
        have hcap := hcond.1
        rw [hgen] at hcap
        exact absurd hcap (by decide)
      next => exact absurd hstep (by simp)
    | renderFire render =>
      simp only [applyEvent] at hstep
      split at hstep
      next hguard =>
        split at hstep
        next htmpl =>
          cases render with
          | ok dataUrl => exact htmpl
          | libMissing => exact htmpl
          | err => exact htmpl
        next htmpl =>
          injection hstep with hstep
          subst hstep
          simp at hres
      next => exact absurd hstep (by simp)
    | reset =>
      simp only [applyEvent] at hstep
      split at hstep
      next hcond =>
        rw [hgen] at hcond
        exact absurd hcond (by decide)
      next => exact absurd hstep (by simp)
  · exact cert_invariant

/-- Witness for claim C4: the happy-path render transition from `sShot`
(all three fields present) into the result state. -/
theorem c4_result_requires_all_fields_witness :
    sShot.location ≠ none ∧ sShot.capturedImage ≠ none ∧ sShot.issueType ≠ none :=
  c4_result_requires_all_fields.1 sShot
    (Event.renderFire (RenderResult.ok "data:image/png;base64,cert")) sDone reach_sShot rfl rfl
    rfl

/-- Claim C5 fails on the code at the frame-capture step: in the reachable
capture state `sLocated`, when `canvas.getContext("2d")` returns `null`,
`handleCapture` still transitions to `"generating"` without storing a frame
and without setting any error message; in the resulting state the rendering
effect's guard (`capturedImage` non-null) never holds and no user action is
offered, so the session is stuck with an empty error message instead of
one message and a return to `Idle`.  (The camera is released, but the
failure is silently swallowed.) -/
theorem c5_capture_context_failure_swallowed :
    Reachable sLocated ∧
    applyEvent sLocated (Event.capturePhoto false "data:image/jpeg;base64,demo") = some sStuck ∧
    sStuck.error = "" ∧ sStuck.step = AppStep.generating ∧ sStuck.streamActive = false ∧
    ∀ e, applyEvent sStuck e = none := by
  refine ⟨reach_sLocated, rfl, rfl, rfl, rfl, ?_⟩
  intro e
  cases e <;> rfl

/-- Claim C6: every geolocation failure is classified by its `code` into a
message, the camera stream is released and the step returns to `Idle`; the
three classified causes (permission denied / position unavailable /
timeout) produce pairwise distinct messages, and code 3 (timeout) always
produces the timeout-specific message. -/
theorem c6_geolocation_failure_recovery :
    (∀ s s' code, applyEvent s (Event.geoResolve (GeoResult.err code)) = some s' →
      s'.step = AppStep.initial ∧ s'.streamActive = false ∧ s'.error = geoErrorMessage code) ∧
    (geoErrorMessage 1 ≠ geoErrorMessage 2 ∧ geoErrorMessage 1 ≠ geoErrorMessage 3 ∧
      geoErrorMessage 2 ≠ geoErrorMessage 3) ∧
    geoErrorMessage 3 =
      "Failed to get your location in time. Please check your network connection and try again." := by
  refine ⟨?_, by decide, rfl⟩
  intro s s' code h
  simp only [applyEvent] at h
  split at h
  next hpend =>
    injection h with h
    subst h
    exact ⟨rfl, rfl, rfl⟩
  next => exact absurd h (by simp)

/-- Witness for claim C6: a timeout (code 3) from the capturing state
`sCamera` lands in `Idle` with the camera released and the timeout
message. -/
theorem c6_geolocation_failure_recovery_witness :
    ∃ s', applyEvent sCamera (Event.geoResolve (GeoResult.err 3)) = some s' ∧
      s'.step = AppStep.initial ∧ s'.streamActive = false ∧ s'.error = geoErrorMessage 3 :=
  ⟨_, rfl, c6_geolocation_failure_recovery.1 sCamera _ 3 rfl⟩

/-- Claim C7, as stated, fails on the code: from the reachable result state
`sDone` (whose region imagery was set from the geocoder's `"Punjab"`),
`handleReset` clears the five listed fields but leaves `cmImageUrl` — the
session's region-imagery reference — set, so the session is not returned to
its initial state and a session field other than the five remains set. -/
theorem c7_counterexample :
    Reachable sDone ∧
    applyEvent sDone Event.reset = some (handleReset sDone) ∧
    (handleReset sDone).cmImageUrl = cmImageUrlFor (some "Punjab") ∧
    (handleReset sDone).cmImageUrl ≠ none ∧
    handleReset sDone ≠ initState := by
  refine ⟨reach_sDone, rfl, rfl, ?_, ?_⟩
  · decide
  · decide

/-- Claim C7 (amended): a user-initiated reset (offered on the result
screen) atomically clears `location`, `capturedImage`, `issueType`, the
rendered certificate and the error message, stops the camera stream and
returns to `Idle` — but it leaves the region-imagery reference
(`cmImageUrl`), the loading message, the sharing flag and any pending
geolocation request untouched, so not every session field is cleared. -/
theorem c7_reset_amended (s s' : AppState) (h : applyEvent s Event.reset = some s') :
    s'.step = AppStep.initial ∧ s'.location = none ∧ s'.error = "" ∧
    s'.capturedImage = none ∧ s'.generatedCertificate = none ∧ s'.issueType = none ∧
    s'.streamActive = false ∧
    s'.cmImageUrl = s.cmImageUrl ∧ s'.loadingMessage = s.loadingMessage ∧
    s'.isSharing = s.isSharing ∧ s'.geoPending = s.geoPending := by
  simp only [applyEvent] at h
  split at h
  next hres =>
    injection h with h
    subst h
    exact ⟨rfl, rfl, rfl, rfl, rfl, rfl, rfl, rfl, rfl, rfl, rfl⟩
  next => exact absurd h (by simp)

/-- Witness for the amended claim C7 at the concrete result state
`sDone`. -/
theorem c7_reset_amended_witness :
    (handleReset sDone).step = AppStep.initial ∧ (handleReset sDone).location = none ∧
    (handleReset sDone).error = "" ∧ (handleReset sDone).capturedImage = none ∧
    (handleReset sDone).generatedCertificate = none ∧ (handleReset sDone).issueType = none ∧
    (handleReset sDone).streamActive = false ∧
    (handleReset sDone).cmImageUrl = sDone.cmImageUrl ∧
    (handleReset sDone).loadingMessage = sDone.loadingMessage ∧
    (handleReset sDone).isSharing = sDone.isSharing ∧
    (handleReset sDone).geoPending = sDone.geoPending :=
  c7_reset_amended sDone (handleReset sDone) rfl
